import Mathlib

/-!
Verification of the local static-analysis engine of the datachonk CLI
(`src/utils/analyzer.ts`): `parseModel`, `detectAntiPatterns`,
`detectAntiPatternsFromContent` and `reviewCode`.

The TypeScript source is embedded shallowly: strings are `List Char`
wrapped in `String`, each regular expression of the source is translated
into an explicit character-level matcher with the same matching semantics
(leftmost match, greedy/lazy quantifiers as analysed per pattern, the
non-overlapping advancement of `matchAll`), and the functions are
total Lean definitions, which is faithful because the source performs no I/O,
no mutation of shared state and no exception-raising operation.
ASCII case mapping is used for `toLowerCase`, matching the inputs the
claims are about.
-/

namespace DataChonk

/-! ### Character classes of JavaScript regular expressions -/

/-- JavaScript regex `\s` restricted to the ASCII whitespace characters. -/
def isWsJs (c : Char) : Bool :=
  c == ' ' || c == '\t' || c == '\n' || c == '\r' || c == '\x0b' || c == '\x0c'

/-- JavaScript regex `\w`: `[A-Za-z0-9_]`. -/
def isWordJs (c : Char) : Bool :=
  (('a' ≤ c && c ≤ 'z') || ('A' ≤ c && c ≤ 'Z') || ('0' ≤ c && c ≤ '9') || c == '_')

/-- The quote character class of the template-call patterns: a single or
double quote. -/
def isQuoteJs (c : Char) : Bool :=
  c == '\x27' || c == '\x22'

/-- ASCII lower-casing of one character, as `String.prototype.toLowerCase`
acts on the ASCII inputs considered here. -/
def toLowerAscii (c : Char) : Char :=
  if 'A' ≤ c && c ≤ 'Z' then Char.ofNat (c.toNat + 32) else c

/-- Lower-casing of the character list, as content.toLowerCase(). -/
def toLowerJs (l : List Char) : List Char := l.map toLowerAscii

/-! ### JavaScript string primitives -/

/-- JavaScript startsWith (case-sensitive). -/
def jsStartsWith (s p : List Char) : Bool := p.isPrefixOf s

/-- JavaScript includes (case-sensitive substring test): `p` occurs at
some position of `l`. -/
def jsIncludes : List Char → List Char → Bool
  | [], p => p.isPrefixOf []
  | c :: t, p => p.isPrefixOf (c :: t) || jsIncludes t p

/-- Case-insensitive literal test at the head of the list, for the `/i`
and `/gi` regex flags (the literals supplied are lower-case). -/
def startsWithCI (p l : List Char) : Bool := p.isPrefixOf (toLowerJs (l.take p.length))

/-- JavaScript split on the newline character. -/
def splitNl : List Char → List (List Char)
  | [] => [[]]
  | c :: t =>
    if c = '\n' then [] :: splitNl t
    else match splitNl t with
      | h :: r => (c :: h) :: r
      | [] => [[c]]

/-- JavaScript findIndex, returning `-1` when no element matches. -/
def jsFindIndex (p : List Char → Bool) : List (List Char) → Int → Int
  | [], _ => -1
  | x :: t, i => if p x then i else jsFindIndex p t (i + 1)

/-- JavaScript trim: strip whitespace from both ends. -/
def trimJs (l : List Char) : List Char :=
  ((l.dropWhile isWsJs).reverse.dropWhile isWsJs).reverse

/-- Consume a `\s*` (maximal whitespace run followed by a non-whitespace
requirement, hence deterministic). -/
def dropWs (l : List Char) : List Char := l.dropWhile isWsJs

/-- Require the literal list `p` at the head and return the rest. -/
def expectLit (p l : List Char) : Option (List Char) :=
  if p.isPrefixOf l then some (l.drop p.length) else none

/-! ### Matchers for the individual regular expressions of `analyzer.ts` -/

/-- One attempt of the ref-call regex `/\{\{\s*ref\(Q([^Q]+)Q\)\s*\}\}/g`
(writing `Q` for the quote class) at the head of the list: on success, the
captured name and the remainder after the match. -/
def matchRefAt (l : List Char) : Option (List Char × List Char) :=
  match l with
  | c1 :: c2 :: t =>
    if c1 = '\x7b' && c2 = '\x7b' then
      match expectLit ['r', 'e', 'f', '('] (dropWs t) with
      | none => none
      | some t2 =>
        match t2 with
        | q :: t3 =>
          if isQuoteJs q then
            let name := t3.takeWhile (fun c => !(isQuoteJs c))
            match t3.dropWhile (fun c => !(isQuoteJs c)) with
            | q2 :: ')' :: t4 =>
              if isQuoteJs q2 && !name.isEmpty then
                match dropWs t4 with
                | d1 :: d2 :: t5 =>
                  if d1 = '\x7d' && d2 = '\x7d' then some (name, t5) else none
                | _ => none
              else none
            | _ => none
          else none
        | [] => none
    else none
  | _ => none

/-- One attempt of the source-call regex
`/\{\{\s*source\(Q([^Q]+)Q,\s*Q([^Q]+)Q\)\s*\}\}/g` (writing `Q` for the
quote class). -/
def matchSourceAt (l : List Char) : Option ((List Char × List Char) × List Char) :=
  match l with
  | c1 :: c2 :: t =>
    if c1 = '\x7b' && c2 = '\x7b' then
      match expectLit ['s', 'o', 'u', 'r', 'c', 'e', '('] (dropWs t) with
      | none => none
      | some t2 =>
        match t2 with
        | q :: t3 =>
          if isQuoteJs q then
            let schema := t3.takeWhile (fun c => !(isQuoteJs c))
            match t3.dropWhile (fun c => !(isQuoteJs c)) with
            | q2 :: ',' :: t4 =>
              if isQuoteJs q2 && !schema.isEmpty then
                match dropWs t4 with
                | q3 :: t5 =>
                  if isQuoteJs q3 then
                    let table := t5.takeWhile (fun c => !(isQuoteJs c))
                    match t5.dropWhile (fun c => !(isQuoteJs c)) with
                    | q4 :: ')' :: t6 =>
                      if isQuoteJs q4 && !table.isEmpty then
                        match dropWs t6 with
                        | d1 :: d2 :: t7 =>
                          if d1 = '\x7d' && d2 = '\x7d' then some ((schema, table), t7)
                          else none
                        | _ => none
                      else none
                    | _ => none
                  else none
                | [] => none
              else none
            | _ => none
          else none
        | [] => none
    else none
  | _ => none

/-- One attempt of the key-value regex `/(\w+)\s*=\s*(Q([^Q]+)Q|(\w+))/g`
(writing `Q` for the quote class) inside the captured config span; yields
the key and the value given by capture 3 or else capture 4. -/
def matchKvAt (l : List Char) : Option ((List Char × List Char) × List Char) :=
  match l with
  | c :: _ =>
    if isWordJs c then
      let key := l.takeWhile isWordJs
      let t1 := dropWs (l.dropWhile isWordJs)
      match t1 with
      | '=' :: t2 =>
        let t3 := dropWs t2
        match t3 with
        | v :: t4 =>
          if isQuoteJs v then
            let inner := t4.takeWhile (fun d => !(isQuoteJs d))
            match t4.dropWhile (fun d => !(isQuoteJs d)) with
            | v2 :: t5 =>
              if isQuoteJs v2 && !inner.isEmpty then some ((key, inner), t5) else none
            | [] => none
          else if isWordJs v then
            some ((key, t3.takeWhile isWordJs), t3.dropWhile isWordJs)
          else none
        | [] => none
      | _ => none
    else none
  | [] => none

/-- One attempt of the materialization regex
`/materialized\s*=\s*Q(\w+)Q/` (writing `Q` for the quote class); the
source takes the first match only. -/
def matchMatAt (l : List Char) : Option (List Char) :=
  match expectLit ['m', 'a', 't', 'e', 'r', 'i', 'a', 'l', 'i', 'z', 'e', 'd'] l with
  | none => none
  | some t1 =>
    match dropWs t1 with
    | '=' :: t2 =>
      match dropWs t2 with
      | q :: t3 =>
        if isQuoteJs q then
          let w := t3.takeWhile isWordJs
          match t3.dropWhile isWordJs with
          | q2 :: _ =>
            if isQuoteJs q2 && !w.isEmpty then some w else none
          | [] => none
        else none
      | [] => none
    | _ => none

/-- The lazy tail of `/\{\{\s*config\s*\(([\s\S]*?)\)\s*\}\}/`: the capture
grows until the first `)` that is followed by `\s*\}\}`. -/
def configTailCap : List Char → Option (List Char)
  | [] => none
  | c :: t =>
    if c = ')' && jsStartsWith (dropWs t) ['\x7d', '\x7d'] then some []
    else (configTailCap t).map (c :: ·)

/-- One attempt of the config regex at the head of the list. -/
def matchConfigAt (l : List Char) : Option (List Char) :=
  match l with
  | c1 :: c2 :: t =>
    if c1 = '\x7b' && c2 = '\x7b' then
      match expectLit ['c', 'o', 'n', 'f', 'i', 'g'] (dropWs t) with
      | none => none
      | some t2 =>
        match dropWs t2 with
        | '(' :: t3 => configTailCap t3
        | _ => none
    else none
  | _ => none

/-- First match of a one-shot matcher over every suffix of the list
(`String.prototype.match` without the `g` flag: leftmost match). -/
def firstSomeBy (mf : List Char → Option β) : List Char → Option β
  | [] => none
  | c :: t =>
    match mf (c :: t) with
    | some b => some b
    | none => firstSomeBy mf t

/-- Fueled scan implementing `matchAll`: at each position attempt the
matcher; on success emit the capture and continue after the match, else
advance one character.  One unit of fuel is spent per character consumed,
so fuel `l.length` always suffices. -/
def scanA (mf : List Char → Option (α × List Char)) : Nat → List Char → List α
  | 0, _ => []
  | _ + 1, [] => []
  | f + 1, c :: t =>
    match mf (c :: t) with
    | some (a, r) => a :: scanA mf f r
    | none => scanA mf f t

/-- JavaScript matchAll, collecting the captures in order. -/
def matchAllWith (mf : List Char → Option (α × List Char)) (l : List Char) : List α :=
  scanA mf l.length l

/-! ### CTE counting: `/\bwith\b/gi` and `/\),\s*\w+\s+as\s*\(/gi` -/

/-- A `\b` boundary holds before a word character when the previous
character (if any) is not a word character. -/
def wbBefore : Option Char → Bool
  | none => true
  | some c => !(isWordJs c)

/-- A `\b` boundary holds after a word character when the next character
(if any) is not a word character. -/
def wbAfter : List Char → Bool
  | [] => true
  | c :: _ => !(isWordJs c)

/-- Count the matches of `/\bwith\b/gi`.  The matches of this pattern can
never overlap (inner positions of a match fail the left boundary), so
counting every matching position equals the `matchAll` count. -/
def countWithWord : Option Char → List Char → Nat
  | _, [] => 0
  | prev, c :: t =>
    (if wbBefore prev && startsWithCI ['w', 'i', 't', 'h'] (c :: t)
        && wbAfter ((c :: t).drop 4)
     then 1 else 0) + countWithWord (some c) t

/-- One attempt of `/\),\s*\w+\s+as\s*\(/gi` at the head of the list. -/
def matchCteAt (l : List Char) : Bool :=
  match l with
  | ')' :: ',' :: t =>
    let t1 := dropWs t
    let w := t1.takeWhile isWordJs
    let t2 := t1.dropWhile isWordJs
    if w.isEmpty then false
    else
      let s := t2.takeWhile isWsJs
      let t3 := t2.dropWhile isWsJs
      if s.isEmpty then false
      else
        startsWithCI ['a', 's'] t3 &&
          (match dropWs (t3.drop 2) with
           | '(' :: _ => true
           | _ => false)
  | _ => false

/-- Count the matches of the continuation-CTE pattern.  A match starts
with `)` and contains no further `)`, so matches never overlap and
counting every matching position equals the `matchAll` count. -/
def countCtePat : List Char → Nat
  | [] => 0
  | c :: t => (if matchCteAt (c :: t) then 1 else 0) + countCtePat t

/-! ### Column extraction: `/select\s+([\s\S]+?)\s+from/i` -/

/-- After the candidate body, at least one whitespace character followed by
the literal `from` (case-insensitive) must occur. -/
def wsThenFromCI (l : List Char) : Bool :=
  (match l with
   | c :: _ => isWsJs c
   | [] => false) && startsWithCI ['f', 'r', 'o', 'm'] (dropWs l)

/-- The lazy `([\s\S]+?)` body: the shortest non-empty prefix whose
remainder satisfies `\s+from`. -/
def lazyBody : List Char → Option (List Char)
  | [] => none
  | c :: t => if wsThenFromCI t then some [c] else (lazyBody t).map (c :: ·)

/-- Backtracking over the greedy `\s+` after `select`: try the longest
whitespace run first, then shorter ones, as the regex engine does. -/
def tryW : Nat → List Char → Option (List Char)
  | 0, _ => none
  | w + 1, t =>
    match lazyBody (t.drop (w + 1)) with
    | some b => some b
    | none => tryW w t

/-- One attempt of the select-clause regex at the head of the list,
returning the capture. -/
def matchSelectAt (l : List Char) : Option (List Char) :=
  if startsWithCI ['s', 'e', 'l', 'e', 'c', 't'] l then
    let t := l.drop 6
    let wmax := (t.takeWhile isWsJs).length
    if wmax = 0 then none else tryW wmax t
  else none

/-- The split lookahead `/,(?![^(]*\))/`: a comma splits unless a `)`
occurs after it before any `(`. -/
def closeBeforeOpen : List Char → Bool
  | [] => false
  | c :: t => if c = ')' then true else if c = '(' then false else closeBeforeOpen t

/-- The split of the captured select clause on top-level commas,
`split(/,(?![^(]*\))/)`. -/
def splitCols : List Char → List (List Char)
  | [] => [[]]
  | c :: t =>
    if c = ',' && !(closeBeforeOpen t) then [] :: splitCols t
    else match splitCols t with
      | h :: r => (c :: h) :: r
      | [] => [[c]]

/-- The alias extraction on one fragment,
`trim().match(/(?:as\s+)?(\w+)\s*$/i)`: the capture is the maximal
trailing word run of the trimmed fragment, when non-empty. -/
def colAlias (frag : List Char) : Option (List Char) :=
  let t := trimJs frag
  let run := (t.reverse.takeWhile isWordJs).reverse
  if run.isEmpty then none else some run

/-! ### Filter-function patterns: `/where\s+(\w+)\(.*?\)\s*=/i` and the
`on` variant (evaluated on the lower-cased text, so the `/i` flag is
inert); only the truthiness of the match is consumed. -/

/-- The lazy `.*?\)\s*=` tail: scan for a `)` followed by `\s*=`; the dot
does not match line terminators, so a line terminator aborts the attempt. -/
def funcTail : List Char → Bool
  | [] => false
  | c :: t =>
    if c = ')' && (match dropWs t with
                   | '=' :: _ => true
                   | _ => false) then true
    else if c = '\n' || c = '\r' then false
    else funcTail t

/-- One attempt of `where\s+(\w+)\(.*?\)\s*=` at the head of the list. -/
def matchWhereFuncAt (l : List Char) : Bool :=
  match expectLit ['w', 'h', 'e', 'r', 'e'] l with
  | none => false
  | some t =>
    let s := t.takeWhile isWsJs
    let t1 := t.dropWhile isWsJs
    if s.isEmpty then false
    else
      let w := t1.takeWhile isWordJs
      match t1.dropWhile isWordJs with
      | '(' :: t2 => !w.isEmpty && funcTail t2
      | _ => false

/-- One attempt of `on\s+(\w+)\(.*?\)\s*=` at the head of the list. -/
def matchOnFuncAt (l : List Char) : Bool :=
  match expectLit ['o', 'n'] l with
  | none => false
  | some t =>
    let s := t.takeWhile isWsJs
    let t1 := t.dropWhile isWsJs
    if s.isEmpty then false
    else
      let w := t1.takeWhile isWordJs
      match t1.dropWhile isWordJs with
      | '(' :: t2 => !w.isEmpty && funcTail t2
      | _ => false

/-- Whether a Boolean matcher succeeds at any position of the list. -/
def hasMatchB (mf : List Char → Bool) : List Char → Bool
  | [] => false
  | c :: t => mf (c :: t) || hasMatchB mf t

/-! ### Hardcoded-date pattern: a single-quoted `20##-##-##` literal -/

/-- One attempt of the date regex at the head of the list, returning
`match[0]` (the quoted literal). -/
def dateAt (l : List Char) : Option (List Char) :=
  match l with
  | q1 :: a :: b :: d1 :: d2 :: h1 :: m1 :: m2 :: h2 :: e1 :: e2 :: q2 :: _ =>
    if q1 = '\x27' && a = '2' && b = '0' && d1.isDigit && d2.isDigit && h1 = '-'
        && m1.isDigit && m2.isDigit && h2 = '-' && e1.isDigit && e2.isDigit
        && q2 = '\x27'
    then some [q1, a, b, d1, d2, h1, m1, m2, h2, e1, e2, q2]
    else none
  | _ => none

/-- The first match of the hardcoded-date regex over the whole text. -/
def findDate (l : List Char) : Option (List Char) := firstSomeBy dateAt l

/-! ### The data model of `analyzer.ts` -/

/-- The `Issue` interface.  Severities are the literal strings
`"critical" | "high" | "medium" | "low"`. -/
structure Issue where
  pattern : String
  severity : String
  location : String
  fix : String
  explanation : String
  line : Option Int
deriving Repr, DecidableEq

/-- The `ParsedModel` interface.  `config` is the JavaScript object as an
insertion-ordered association list with overwrite-on-assignment. -/
structure ParsedModel where
  name : String
  type : String
  materialization : Option String
  config : List (String × String)
  refs : List String
  sources : List (String × String)
  columns : List String
  hasTests : Bool
  cteCount : Nat
  lineCount : Nat
deriving Repr, DecidableEq

/-- Assignment on a JavaScript object: overwrite in place or append. -/
def objSet (o : List (String × String)) (k v : String) : List (String × String) :=
  if o.any (fun p => p.1 = k) then o.map (fun p => if p.1 = k then (k, v) else p)
  else o ++ [(k, v)]

/-- Lookup on a JavaScript object. -/
def objGet (o : List (String × String)) (k : String) : Option String :=
  (o.find? (fun p => p.1 = k)).map (fun p => p.2)

/-- Truthiness of `obj[k]` for string-valued objects: `undefined` and the
empty string are falsy. -/
def objTruthy (o : List (String × String)) (k : String) : Bool :=
  match objGet o k with
  | none => false
  | some v => v ≠ ""

/-- The type classification of `parseModel` (lines 27–32 of the source):
case-sensitive prefix tests on `fileName`, first match wins. -/
def inferType (fileName : List Char) : String :=
  if jsStartsWith fileName ['s', 't', 'g', '_'] then "staging"
  else if jsStartsWith fileName ['i', 'n', 't', '_'] then "intermediate"
  else if jsStartsWith fileName ['f', 'c', 't', '_'] then "fact"
  else if jsStartsWith fileName ['d', 'i', 'm', '_'] then "dimension"
  else if jsIncludes fileName ['s', 'n', 'a', 'p', 's', 'h', 'o', 't'] then "snapshot"
  else "unknown"

/-- The function parseModel(content, fileName) of the analyzer. -/
def parseModel (content fileName : String) : ParsedModel :=
  let l := content.toList
  let configCap := firstSomeBy matchConfigAt l
  let materialization :=
    configCap.bind (fun cs => (firstSomeBy matchMatAt cs).map (fun w => String.mk w))
  let config :=
    match configCap with
    | none => []
    | some cs =>
      (matchAllWith matchKvAt cs).foldl
        (fun o kv => objSet o (String.mk kv.1) (String.mk kv.2)) []
  let columns :=
    match firstSomeBy matchSelectAt l with
    | none => []
    | some cap =>
      if jsIncludes cap ['*'] then []
      else ((splitCols cap).filterMap colAlias).map String.mk
  { name := fileName
    type := inferType fileName.toList
    materialization := materialization
    config := config
    refs := (matchAllWith matchRefAt l).map String.mk
    sources := (matchAllWith matchSourceAt l).map (fun p => (String.mk p.1, String.mk p.2))
    columns := columns
    hasTests := false
    cteCount := countWithWord none l + countCtePat l
    lineCount := (splitNl l).length }

/-- The exported two-argument `detectAntiPatterns(model, warehouse)`: its
body only declares an empty issue list and returns it. -/
def detectAntiPatterns (_model : ParsedModel) (_warehouse : String) : List Issue :=
  []

/-- The function detectAntiPatternsFromContent(content, model,
warehouse): the rule chain, in source order, as a concatenation of
conditional singletons. -/
def detectAntiPatternsFromContent (content : String) (model : ParsedModel)
    (warehouse : String) : List Issue :=
  let l := content.toList
  let sqlLower := toLowerJs l
  let lines := splitNl l
  (if jsIncludes sqlLower ['s', 'e', 'l', 'e', 'c', 't', ' ', '*']
      && !(jsIncludes sqlLower
            ['s', 'e', 'l', 'e', 'c', 't', ' ', '*', ' ', 'f', 'r', 'o', 'm', ' ', '('])
   then
     let lineNum := jsFindIndex
       (fun ln => jsIncludes (toLowerJs ln) ['s', 'e', 'l', 'e', 'c', 't', ' ', '*'])
       lines 0 + 1
     [{ pattern := "SELECT * in production", severity := "high",
        location := "Line " ++ toString lineNum,
        fix := "List specific columns needed",
        explanation := "SELECT * is fragile (breaks when source adds columns), expensive (transfers unnecessary data), and hides dependencies.",
        line := some lineNum }]
   else [])
  ++ (if model.type = "staging" then
        (if jsIncludes sqlLower [' ', 'j', 'o', 'i', 'n', ' ']
            && !(jsIncludes sqlLower
                  ['d', 'e', 'd', 'u', 'p', 'l', 'i', 'c', 'a', 't', 'i', 'o', 'n'])
         then
           let lineNum := jsFindIndex
             (fun ln => jsIncludes (toLowerJs ln) [' ', 'j', 'o', 'i', 'n', ' '])
             lines 0 + 1
           [{ pattern := "Join in staging model", severity := "medium",
              location := "Line " ++ toString lineNum,
              fix := "Move joins to intermediate or mart layer",
              explanation := "Staging should be 1:1 with source. Joins belong in intermediate models where business logic lives.",
              line := some lineNum }]
         else [])
        ++ (if model.refs.length > 0 then
              [{ pattern := "ref() in staging model", severity := "high",
                 location := "Model references",
                 fix := "Use source() instead of ref() in staging models",
                 explanation := "Staging models should only reference sources, not other models.",
                 line := none }]
            else [])
      else [])
  ++ (if jsIncludes sqlLower
          ['i', 's', '_', 'i', 'n', 'c', 'r', 'e', 'm', 'e', 'n', 't', 'a', 'l', '(', ')']
        && !(objTruthy model.config "unique_key")
      then
        [{ pattern := "Incremental without unique_key", severity := "critical",
           location := "Config block",
           fix := "Add unique_key to config for merge/delete+insert strategies",
           explanation := "Without unique_key, merge strategy won\x27t work correctly and you\x27ll accumulate duplicates.",
           line := none }]
      else [])
  ++ (if jsIncludes sqlLower
          ['i', 's', '_', 'i', 'n', 'c', 'r', 'e', 'm', 'e', 'n', 't', 'a', 'l', '(', ')']
        && !(jsIncludes sqlLower ['<', ' ', 'c', 'u', 'r', 'r', 'e', 'n', 't']
             || jsIncludes sqlLower ['<', ' ', 'g', 'e', 't', 'd', 'a', 't', 'e']
             || jsIncludes sqlLower ['<', ' ', 'n', 'o', 'w', '(', ')']
             || jsIncludes sqlLower ['<', ' ', 's', 'y', 's', 'd', 'a', 't', 'e'])
      then
        [{ pattern := "Unbounded incremental filter", severity := "medium",
           location := "Incremental WHERE clause",
           fix := "Add upper bound: AND updated_at < current_timestamp()",
           explanation := "Future-dated rows will be processed repeatedly without an upper bound.",
           line := none }]
      else [])
  ++ (match findDate l with
      | some m =>
        let lineNum := jsFindIndex (fun ln => jsIncludes ln m) lines 0 + 1
        [{ pattern := "Hardcoded date literal", severity := "medium",
           location := "Line " ++ toString lineNum ++ ": " ++ String.mk m,
           fix := "Use var() or dbt_date macros",
           explanation := "Hardcoded dates require manual updates and differ between environments.",
           line := some lineNum }]
      | none => [])
  ++ (if jsIncludes sqlLower
          ['s', 'e', 'l', 'e', 'c', 't', ' ', 'd', 'i', 's', 't', 'i', 'n', 'c', 't']
        && jsIncludes sqlLower [' ', 'j', 'o', 'i', 'n', ' ']
      then
        [{ pattern := "DISTINCT after JOIN (possible fan-out fix)", severity := "high",
           location := "SELECT DISTINCT with JOIN",
           fix := "Fix the join condition or deduplicate upstream",
           explanation := "DISTINCT after JOIN often masks a fan-out problem. Fix the root cause instead.",
           line := none }]
      else [])
  ++ (if jsIncludes sqlLower ['c', 'r', 'o', 's', 's', ' ', 'j', 'o', 'i', 'n'] then
        let lineNum := jsFindIndex
          (fun ln => jsIncludes (toLowerJs ln) ['c', 'r', 'o', 's', 's', ' ', 'j', 'o', 'i', 'n'])
          lines 0 + 1
        [{ pattern := "CROSS JOIN detected", severity := "critical",
           location := "Line " ++ toString lineNum,
           fix := "Ensure CROSS JOIN is intentional; consider alternatives",
           explanation := "CROSS JOINs create Cartesian products. Even small tables (1K x 1K = 1M rows) can explode.",
           line := some lineNum }]
      else [])
  ++ (if hasMatchB matchWhereFuncAt sqlLower || hasMatchB matchOnFuncAt sqlLower then
        [{ pattern := "Function on filter/join column", severity := "high",
           location := "WHERE/ON clause",
           fix := "Move transformation to other side of comparison or materialize",
           explanation := "Functions on filter columns prevent partition pruning and index usage.",
           line := none }]
      else [])
  ++ (if warehouse = "snowflake" then
        (if jsIncludes sqlLower
            ['u', 'u', 'i', 'd', '_', 's', 't', 'r', 'i', 'n', 'g', '(', ')']
           && model.materialization = some "view"
         then
           [{ pattern := "Non-deterministic function in view", severity := "medium",
              location := "UUID generation",
              fix := "Materialize as table or use consistent key generation",
              explanation := "UUID_STRING() in views generates new values on each query.",
              line := none }]
         else [])
      else [])
  ++ (if warehouse = "bigquery" then
        (if jsIncludes sqlLower ['l', 'i', 'm', 'i', 't']
            && !(jsIncludes sqlLower ['o', 'r', 'd', 'e', 'r', ' ', 'b', 'y'])
         then
           [{ pattern := "LIMIT without ORDER BY", severity := "medium",
              location := "LIMIT clause",
              fix := "Add ORDER BY for deterministic results",
              explanation := "BigQuery doesn\x27t guarantee row order without ORDER BY.",
              line := none }]
         else [])
      else [])
  ++ (if model.cteCount > 7 then
        [{ pattern := "High CTE count", severity := "low",
           location := toString model.cteCount ++ " CTEs detected",
           fix := "Consider breaking into separate intermediate models",
           explanation := "Many CTEs can be hard to maintain and debug. Consider refactoring.",
           line := none }]
      else [])

/-! ### The review scorer -/

/-- One element of the `issues` array returned by `reviewCode`. -/
structure ReviewIssue where
  severity : String
  title : String
  description : String
  suggestion : String
  line : Option Int
deriving Repr, DecidableEq

/-- The return value of `reviewCode`. -/
structure ReviewResult where
  score : Int
  overall : String
  strengths : List String
  issues : List ReviewIssue
deriving Repr, DecidableEq

/-- The per-severity deduction of the `switch` in `reviewCode` (lines
333–340); severities outside the four cases deduct nothing. -/
def severityDeduction (s : String) : Int :=
  if s = "critical" then 25
  else if s = "high" then 15
  else if s = "medium" then 10
  else if s = "low" then 5
  else 0

/-- The low-severity issue appended by the strict missing-description
check. -/
def missingDescIssue : ReviewIssue :=
  { severity := "low", title := "Missing model description",
    description := "Model has no description in config or YAML",
    suggestion := "Add a description explaining the model\x27s purpose",
    line := none }

/-- The low-severity issue appended by the strict naming-convention check
(note the 3-letter truncation of the type name). -/
def namingIssue (model : ParsedModel) : ReviewIssue :=
  { severity := "low", title := "Inconsistent naming convention",
    description := "Model type appears to be " ++ model.type
      ++ " but name doesn\x27t follow convention",
    suggestion := "Rename to " ++ String.mk (model.type.toList.take 3)
      ++ "_" ++ model.name,
    line := none }

/-- The Boolean condition of the strict missing-description check:
`!content.includes("description")`. -/
def missingDescCond (content : String) : Bool :=
  !(jsIncludes content.toList
      ['d', 'e', 's', 'c', 'r', 'i', 'p', 't', 'i', 'o', 'n'])

/-- The Boolean condition of the strict naming-convention check:
`model.type !== "unknown" && !model.name.startsWith(model.type.slice(0,3) + "_")`. -/
def namingCond (model : ParsedModel) : Bool :=
  (model.type != "unknown")
    && !(jsStartsWith model.name.toList (model.type.toList.take 3 ++ ['_']))

/-- The function reviewCode(model, content, warehouse, strict) of the
analyzer. -/
def reviewCode (model : ParsedModel) (content : String) (warehouse : String)
    (strict : Bool) : ReviewResult :=
  let l := content.toList
  let sqlLower := toLowerJs l
  let strengths :=
    (if jsIncludes l ['c', 'o', 'n', 'f', 'i', 'g', '('] then
       ["Uses config block for model configuration"] else [])
    ++ (if jsIncludes l ['-', '-', ' '] || jsIncludes l ['/', '*'] then
          ["Code includes comments"] else [])
    ++ (if jsIncludes sqlLower ['c', 'o', 'a', 'l', 'e', 's', 'c', 'e']
          || jsIncludes sqlLower ['i', 'f', 'n', 'u', 'l', 'l']
          || jsIncludes sqlLower ['n', 'v', 'l'] then
          ["Handles null values appropriately"] else [])
    ++ (if model.materialization = some "incremental" then
          ["Uses incremental materialization for efficiency"] else [])
    ++ (if 0 < model.cteCount && model.cteCount ≤ 5 then
          ["Uses CTEs for readable organization"] else [])
  let antiPatterns := detectAntiPatternsFromContent content model warehouse
  let apIssues := antiPatterns.map (fun ap =>
    ({ severity := ap.severity, title := ap.pattern, description := ap.explanation,
       suggestion := ap.fix, line := ap.line } : ReviewIssue))
  let apPenalty := (antiPatterns.map (fun ap => severityDeduction ap.severity)).sum
  let dMiss := strict && missingDescCond content
  let dName := strict && namingCond model
  let issues := apIssues
    ++ (if dMiss then [missingDescIssue] else [])
    ++ (if dName then [namingIssue model] else [])
  let score : Int := 100 - apPenalty - (if dMiss then 5 else 0)
    - (if dName then 5 else 0)
  let score := max 0 (min 100 score)
  let overall :=
    if issues.any (fun i => i.severity = "critical") then "request_changes"
    else if issues.any (fun i => i.severity = "high") then
      (if strict then "request_changes" else "comment")
    else if issues.length > 0 then "comment"
    else "approve"
  { score := score, overall := overall, strengths := strengths, issues := issues }

/-! ### Auxiliary shapes and the concrete inputs used by the claims -/

/-- The characters of a dbt ref call with both delimiters spaced as in
the specification examples, e.g. the character list of
`\x7b\x7b ref(\x27a\x27) \x7d\x7d` for a single-quote `q` and the name
`a`. -/
def refCallChars (q : Char) (n : List Char) : List Char :=
  '\x7b' :: '\x7b' :: ' ' :: 'r' :: 'e' :: 'f' :: '(' :: q ::
    (n ++ q :: ')' :: ' ' :: '\x7d' :: '\x7d' :: [])

/-- Match zero of the hardcoded-date regex: a single-quoted `20##-##-##`
literal with digit characters `d1 d2 m1 m2 e1 e2`. -/
def datePat (d1 d2 m1 m2 e1 e2 : Char) : List Char :=
  ['\x27', '2', '0', d1, d2, '-', m1, m2, '-', e1, e2, '\x27']

/-- The text contains a single-quoted `20##-##-##` literal, the exact
shape the source regex recognises. -/
def HasDateLit (l : List Char) : Prop :=
  ∃ pre post d1 d2 m1 m2 e1 e2,
    (d1.isDigit ∧ d2.isDigit ∧ m1.isDigit ∧ m2.isDigit ∧ e1.isDigit ∧ e2.isDigit)
    ∧ l = pre ++ datePat d1 d2 m1 m2 e1 e2 ++ post

/-- A quoted `YYYY-MM-DD` string literal with arbitrary digits, the shape
the claim asserts the rule to match. -/
def IsQuotedYmd (l : List Char) : Prop :=
  ∃ pre post y1 y2 y3 y4 m1 m2 d1 d2,
    (y1.isDigit ∧ y2.isDigit ∧ y3.isDigit ∧ y4.isDigit ∧ m1.isDigit ∧ m2.isDigit
      ∧ d1.isDigit ∧ d2.isDigit)
    ∧ l = pre ++ ['\x27', y1, y2, y3, y4, '-', m1, m2, '-', d1, d2, '\x27'] ++ post

/-- The text `\x271999-01-01\x27`: a quoted YYYY-MM-DD literal whose
year does not start with `20`. -/
def year1999Content : String := "\x271999-01-01\x27"

/-- The 1999 text parsed as `x.sql`. -/
def year1999Model : ParsedModel := parseModel year1999Content "x.sql"

/-- The two-line end-to-end scenario input of the specification:
`\x7b\x7b config(materialized=\x27incremental\x27) \x7d\x7d`, a newline,
then `select * from \x7b\x7b source(\x27raw\x27,\x27orders\x27) \x7d\x7d`. -/
def fctOrdersContent : String :=
  "\x7b\x7b config(materialized=\x27incremental\x27) \x7d\x7d\nselect * from \x7b\x7b source(\x27raw\x27,\x27orders\x27) \x7d\x7d"

/-- The scenario model, parsed from the scenario text as `fct_orders.sql`. -/
def fctOrdersModel : ParsedModel := parseModel fctOrdersContent "fct_orders.sql"

/-- A model text firing six rules (penalty 90, score 10): `select *`,
`is_incremental()` with no `unique_key` and no upper bound, a hardcoded
date, DISTINCT after JOIN, and a function on a filter column. -/
def c2contentA : String :=
  "select * from t\n\x7b% if is_incremental() %\x7d\nselect distinct a from b join c on b.id = c.id where date(d) = \x272023-01-01\x27"

/-- The same text with one additional `cross join` line, adding exactly one
extra critical issue (penalty 115, score clamped to 0). -/
def c2contentB : String := c2contentA ++ "\ncross join e"

/-- The first text parsed as `fct_a.sql`. -/
def c2modelA : ParsedModel := parseModel c2contentA "fct_a.sql"

/-- The second text parsed as `fct_a.sql`. -/
def c2modelB : ParsedModel := parseModel c2contentB "fct_a.sql"

/-- The one extra issue of the second text: the critical CROSS JOIN issue. -/
def c2extraIssue : Issue :=
  { pattern := "CROSS JOIN detected", severity := "critical", location := "Line 4",
    fix := "Ensure CROSS JOIN is intentional; consider alternatives",
    explanation := "CROSS JOINs create Cartesian products. Even small tables (1K x 1K = 1M rows) can explode.",
    line := some 4 }

/-- The second end-to-end scenario input: `stg_customers.sql` containing a
ref call. -/
def stgCustomersContent : String := "\x7b\x7b ref(\x27int_customers\x27) \x7d\x7d"

/-- The scenario model, parsed from the ref-call text as
`stg_customers.sql`. -/
def stgCustomersModel : ParsedModel := parseModel stgCustomersContent "stg_customers.sql"

/-! ### General lemmas about the string primitives -/

theorem isPrefixOf_iff_exists_append {p l : List Char} :
    p.isPrefixOf l = true ↔ ∃ r, l = p ++ r := by
  induction p generalizing l with
  | nil => simp [List.isPrefixOf]
  | cons a as ih =>
    cases l with
    | nil => simp [List.isPrefixOf]
    | cons b bs =>
      simp only [List.isPrefixOf, Bool.and_eq_true, beq_iff_eq, ih, List.cons_append,
        List.cons.injEq]
      constructor
      · rintro ⟨hab, r, hr⟩
        exact ⟨r, hab.symm, hr⟩
      · rintro ⟨r, hab, hr⟩
        exact ⟨hab.symm, r, hr⟩

theorem jsStartsWith_iff_take {l p : List Char} :
    jsStartsWith l p = true ↔ l.take p.length = p := by
  rw [jsStartsWith, isPrefixOf_iff_exists_append]
  constructor
  · rintro ⟨r, rfl⟩
    simp
  · intro h
    exact ⟨l.drop p.length, by conv_lhs => rw [← List.take_append_drop p.length l, h]⟩

theorem jsIncludes_iff_parts {l p : List Char} :
    jsIncludes l p = true ↔ ∃ s t, l = s ++ p ++ t := by
  induction l with
  | nil =>
    rw [jsIncludes]
    simp only [isPrefixOf_iff_exists_append]
    constructor
    · rintro ⟨r, hr⟩
      exact ⟨[], r, hr⟩
    · rintro ⟨s, t, h⟩
      refine ⟨t, ?_⟩
      rcases List.append_eq_nil.mp (List.append_eq_nil.mp h.symm).1 with ⟨rfl, rfl⟩
      simpa using h
  | cons c cs ih =>
    rw [jsIncludes, Bool.or_eq_true, ih, isPrefixOf_iff_exists_append]
    constructor
    · rintro (⟨r, hr⟩ | ⟨s, t, rfl⟩)
      · exact ⟨[], r, by simpa using hr⟩
      · exact ⟨c :: s, t, rfl⟩
    · rintro ⟨s, t, h⟩
      cases s with
      | nil => exact Or.inl ⟨t, by simpa using h⟩
      | cons d ds =>
        simp only [List.cons_append, List.cons.injEq] at h
        exact Or.inr ⟨ds, t, by simp [h.2]⟩

theorem jsIncludes_of_parts {l p : List Char} (s t : List Char) (h : l = s ++ p ++ t) :
    jsIncludes l p = true :=
  jsIncludes_iff_parts.mpr ⟨s, t, h⟩

theorem jsIncludes_eq_false_iff {l p : List Char} :
    jsIncludes l p = false ↔ ∀ s t, l ≠ s ++ p ++ t := by
  rw [← Bool.not_eq_true, jsIncludes_iff_parts]
  push_neg
  exact Iff.rfl

/-! ### General lemmas about the scanners -/

theorem firstSomeBy_cons_some {β : Type} {mf : List Char → Option β} {c : Char}
    {t : List Char} {b : β} (hm : mf (c :: t) = some b) :
    firstSomeBy mf (c :: t) = some b := by
  rw [firstSomeBy, hm]

theorem firstSomeBy_cons_none {β : Type} {mf : List Char → Option β} {c : Char}
    {t : List Char} (hm : mf (c :: t) = none) :
    firstSomeBy mf (c :: t) = firstSomeBy mf t := by
  rw [firstSomeBy, hm]

theorem firstSomeBy_eq_some {β : Type} {mf : List Char → Option β} {l : List Char} {b : β}
    (h : firstSomeBy mf l = some b) : ∃ s t, l = s ++ t ∧ mf t = some b := by
  induction l with
  | nil => simp [firstSomeBy] at h
  | cons c cs ih =>
    cases hm : mf (c :: cs) with
    | some b2 =>
      rw [firstSomeBy_cons_some hm] at h
      exact ⟨[], c :: cs, rfl, by rw [hm, h]⟩
    | none =>
      rw [firstSomeBy_cons_none hm] at h
      obtain ⟨s, t, hst, hmt⟩ := ih h
      exact ⟨c :: s, t, by simp [hst], hmt⟩

theorem firstSomeBy_isSome {β : Type} {mf : List Char → Option β} {suf : List Char} {b : β}
    (pre : List Char) (hne : suf ≠ []) (h : mf suf = some b) :
    (firstSomeBy mf (pre ++ suf)).isSome = true := by
  induction pre with
  | nil =>
    cases suf with
    | nil => exact absurd rfl hne
    | cons c cs => simp [firstSomeBy_cons_some h]
  | cons d ds ih =>
    rw [List.cons_append]
    cases hm : mf (d :: (ds ++ suf)) with
    | some b2 => simp [firstSomeBy_cons_some hm]
    | none => rw [firstSomeBy_cons_none hm]; exact ih

theorem firstSomeBy_eq_none {β : Type} {mf : List Char → Option β} {l : List Char}
    (h : ∀ s t, s ++ t = l → mf t = none) : firstSomeBy mf l = none := by
  induction l with
  | nil => rfl
  | cons c cs ih =>
    rw [firstSomeBy_cons_none (h [] (c :: cs) rfl)]
    exact ih fun s t hst => h (c :: s) t (by simp [hst])

theorem scanA_cons_some {α : Type} {mf : List Char → Option (α × List Char)} {c : Char}
    {t r : List Char} {a : α} {f : Nat} (hm : mf (c :: t) = some (a, r)) :
    scanA mf (f + 1) (c :: t) = a :: scanA mf f r := by
  rw [scanA, hm]

theorem scanA_cons_none {α : Type} {mf : List Char → Option (α × List Char)} {c : Char}
    {t : List Char} {f : Nat} (hm : mf (c :: t) = none) :
    scanA mf (f + 1) (c :: t) = scanA mf f t := by
  rw [scanA, hm]

theorem scanA_eq_nil {α : Type} {mf : List Char → Option (α × List Char)} {l : List Char}
    (f : Nat) (h : ∀ s t, s ++ t = l → mf t = none) : scanA mf f l = [] := by
  induction f generalizing l with
  | zero => rfl
  | succ f ih =>
    cases l with
    | nil => rfl
    | cons c cs =>
      rw [scanA_cons_none (h [] (c :: cs) rfl)]
      exact ih fun s t hst => h (c :: s) t (by simp [hst])

theorem scanA_fuel {α : Type} {mf : List Char → Option (α × List Char)}
    (hm : ∀ l a r, mf l = some (a, r) → r.length < l.length) :
    ∀ f l, l.length ≤ f → scanA mf f l = scanA mf l.length l := by
  intro f
  induction f using Nat.strong_induction_on with
  | _ f ih =>
    intro l hl
    match f, hl with
    | 0, hl =>
      rw [Nat.le_zero, List.length_eq_zero] at hl
      subst hl
      rfl
    | f + 1, hl =>
      cases l with
      | nil => rfl
      | cons c cs =>
        have hcs : cs.length ≤ f := by simpa using hl
        cases hmf : mf (c :: cs) with
        | some ar =>
          obtain ⟨a, r⟩ := ar
          have hr := hm _ _ _ hmf
          rw [List.length_cons] at hr
          rw [scanA_cons_some hmf, List.length_cons, scanA_cons_some hmf,
            ih f (by omega) r (by omega), ih cs.length (by omega) r (by omega)]
        | none =>
          rw [scanA_cons_none hmf, List.length_cons, scanA_cons_none hmf,
            ih f (by omega) cs hcs, ih cs.length (by omega) cs (by omega)]

theorem dropWhile_length_le (p : Char → Bool) (l : List Char) :
    (l.dropWhile p).length ≤ l.length := by
  induction l with
  | nil => simp
  | cons c cs ih =>
    rw [List.dropWhile]
    cases p c
    · simp
    · exact Nat.le_succ_of_le ih

theorem dropWs_length_le (l : List Char) : (dropWs l).length ≤ l.length :=
  dropWhile_length_le isWsJs l

/-! ### Head conditions of the template-call matchers -/

theorem matchRefAt_cons_ne {c : Char} {l : List Char} (hc : c ≠ '\x7b') :
    matchRefAt (c :: l) = none := by
  cases l with
  | nil => rfl
  | cons d t => simp [matchRefAt, hc]

theorem matchSourceAt_cons_ne {c : Char} {l : List Char} (hc : c ≠ '\x7b') :
    matchSourceAt (c :: l) = none := by
  cases l with
  | nil => rfl
  | cons d t => simp [matchSourceAt, hc]

theorem matchConfigAt_cons_ne {c : Char} {l : List Char} (hc : c ≠ '\x7b') :
    matchConfigAt (c :: l) = none := by
  cases l with
  | nil => rfl
  | cons d t => simp [matchConfigAt, hc]

theorem matchSelectAt_eq_none {l : List Char}
    (h : startsWithCI ['s', 'e', 'l', 'e', 'c', 't'] l = false) :
    matchSelectAt l = none := by
  simp [matchSelectAt, h]

theorem expectLit_length {p l t : List Char} (h : expectLit p l = some t) :
    t.length ≤ l.length := by
  rw [expectLit] at h
  split at h
  · cases h
    simp
  · cases h

/-- A successful `matchRefAt` consumes at least one character, so the
`matchAll` scan shrinks its input at every step. -/
theorem matchRefAt_shrink {l n r : List Char} (h : matchRefAt l = some (n, r)) :
    r.length < l.length := by
  match l with
  | [] => simp [matchRefAt] at h
  | [c] => simp [matchRefAt] at h
  | c1 :: c2 :: t =>
    rw [matchRefAt] at h
    repeat (split at h <;> try cases h)
    all_goals dsimp only at h
    all_goals (split at h <;> try cases h)
    rename_i hb x2 t2 q t3 heq1 hq x1 q2 t4 heq2 x0 d1 d2 hb2 hg heq3
    have e1 := expectLit_length heq1
    have e2 := dropWs_length_le t
    have e3 := dropWhile_length_le (fun c => !(isQuoteJs c)) t3
    rw [heq2] at e3
    have e4 := dropWs_length_le t4
    rw [heq3] at e4
    simp only [List.length_cons] at e1 e3 e4 ⊢
    omega

/-! ### Behaviour of the ref matcher on a literal call -/



theorem takeWhile_append_eq {p : Char → Bool} {n : List Char} {q : Char} {r : List Char}
    (hn : ∀ c ∈ n, p c = true) (hq : p q = false) :
    (n ++ q :: r).takeWhile p = n ∧ (n ++ q :: r).dropWhile p = q :: r := by
  induction n with
  | nil => simp [List.takeWhile, List.dropWhile, hq]
  | cons a as ih =>
    have ha : p a = true := hn a (by simp)
    have ih2 := ih fun c hc => hn c (by simp [hc])
    simp [List.takeWhile, List.dropWhile, ha, ih2.1, ih2.2]

theorem matchRefAt_refCall {q : Char} {n rest : List Char} (hq : isQuoteJs q = true)
    (hne : n ≠ []) (hnq : ∀ c ∈ n, isQuoteJs c = false) :
    matchRefAt (refCallChars q n ++ rest) = some (n, rest) := by
  have hsplit := takeWhile_append_eq (p := fun c => !(isQuoteJs c))
    (n := n) (q := q) (r := ')' :: ' ' :: '\x7d' :: '\x7d' :: rest)
    (fun c hc => by simp [hnq c hc]) (by simp [hq])
  have hemp : n.isEmpty = false := by
    cases n with
    | nil => exact absurd rfl hne
    | cons a as => rfl
  simp [refCallChars, matchRefAt, dropWs, List.dropWhile, isWsJs, expectLit,
    List.isPrefixOf, hq, hsplit.1, hsplit.2, hemp]

theorem matchAllWith_not_brace {sep rest : List Char} (h : ∀ c ∈ sep, c ≠ '\x7b') :
    matchAllWith matchRefAt (sep ++ rest) = matchAllWith matchRefAt rest := by
  induction sep with
  | nil => simp
  | cons c cs ih =>
    rw [List.cons_append, matchAllWith, List.length_cons,
      scanA_cons_none (matchRefAt_cons_ne (h c (by simp)))]
    exact ih fun d hd => h d (by simp [hd])

theorem matchAllWith_refCall {q : Char} {n rest : List Char} (hq : isQuoteJs q = true)
    (hne : n ≠ []) (hnq : ∀ c ∈ n, isQuoteJs c = false) :
    matchAllWith matchRefAt (refCallChars q n ++ rest)
      = n :: matchAllWith matchRefAt rest := by
  have hm := @matchRefAt_refCall q n rest hq hne hnq
  simp only [refCallChars, List.cons_append] at hm ⊢
  rw [matchAllWith]
  simp only [List.length_cons]
  rw [scanA_cons_some hm,
    scanA_fuel (fun l a r hlar => matchRefAt_shrink hlar) _ rest (by simp; omega)]
  rfl

/-! ### Case lemmas for the type-inference chain -/

theorem inferType_stg {f : List Char} (h : f.take 4 = ['s', 't', 'g', '_']) :
    inferType f = "staging" := by
  have hb : jsStartsWith f ['s', 't', 'g', '_'] = true :=
    jsStartsWith_iff_take.mpr (by simpa using h)
  simp [inferType, hb]

theorem inferType_int {f : List Char} (h1 : f.take 4 ≠ ['s', 't', 'g', '_'])
    (h2 : f.take 4 = ['i', 'n', 't', '_']) : inferType f = "intermediate" := by
  have hb1 : jsStartsWith f ['s', 't', 'g', '_'] = false := by
    rw [← Bool.not_eq_true, jsStartsWith_iff_take]
    simpa using h1
  have hb2 : jsStartsWith f ['i', 'n', 't', '_'] = true :=
    jsStartsWith_iff_take.mpr (by simpa using h2)
  simp [inferType, hb1, hb2]

theorem inferType_fct {f : List Char} (h1 : f.take 4 ≠ ['s', 't', 'g', '_'])
    (h2 : f.take 4 ≠ ['i', 'n', 't', '_'])
    (h3 : f.take 4 = ['f', 'c', 't', '_']) : inferType f = "fact" := by
  have hb1 : jsStartsWith f ['s', 't', 'g', '_'] = false := by
    rw [← Bool.not_eq_true, jsStartsWith_iff_take]
    simpa using h1
  have hb2 : jsStartsWith f ['i', 'n', 't', '_'] = false := by
    rw [← Bool.not_eq_true, jsStartsWith_iff_take]
    simpa using h2
  have hb3 : jsStartsWith f ['f', 'c', 't', '_'] = true :=
    jsStartsWith_iff_take.mpr (by simpa using h3)
  simp [inferType, hb1, hb2, hb3]

theorem inferType_dim {f : List Char} (h1 : f.take 4 ≠ ['s', 't', 'g', '_'])
    (h2 : f.take 4 ≠ ['i', 'n', 't', '_']) (h3 : f.take 4 ≠ ['f', 'c', 't', '_'])
    (h4 : f.take 4 = ['d', 'i', 'm', '_']) : inferType f = "dimension" := by
  have hb1 : jsStartsWith f ['s', 't', 'g', '_'] = false := by
    rw [← Bool.not_eq_true, jsStartsWith_iff_take]
    simpa using h1
  have hb2 : jsStartsWith f ['i', 'n', 't', '_'] = false := by
    rw [← Bool.not_eq_true, jsStartsWith_iff_take]
    simpa using h2
  have hb3 : jsStartsWith f ['f', 'c', 't', '_'] = false := by
    rw [← Bool.not_eq_true, jsStartsWith_iff_take]
    simpa using h3
  have hb4 : jsStartsWith f ['d', 'i', 'm', '_'] = true :=
    jsStartsWith_iff_take.mpr (by simpa using h4)
  simp [inferType, hb1, hb2, hb3, hb4]

theorem inferType_snapshot {f : List Char} (h1 : f.take 4 ≠ ['s', 't', 'g', '_'])
    (h2 : f.take 4 ≠ ['i', 'n', 't', '_']) (h3 : f.take 4 ≠ ['f', 'c', 't', '_'])
    (h4 : f.take 4 ≠ ['d', 'i', 'm', '_'])
    (h5 : ∃ s t, f = s ++ ['s', 'n', 'a', 'p', 's', 'h', 'o', 't'] ++ t) :
    inferType f = "snapshot" := by
  have hb1 : jsStartsWith f ['s', 't', 'g', '_'] = false := by
    rw [← Bool.not_eq_true, jsStartsWith_iff_take]
    simpa using h1
  have hb2 : jsStartsWith f ['i', 'n', 't', '_'] = false := by
    rw [← Bool.not_eq_true, jsStartsWith_iff_take]
    simpa using h2
  have hb3 : jsStartsWith f ['f', 'c', 't', '_'] = false := by
    rw [← Bool.not_eq_true, jsStartsWith_iff_take]
    simpa using h3
  have hb4 : jsStartsWith f ['d', 'i', 'm', '_'] = false := by
    rw [← Bool.not_eq_true, jsStartsWith_iff_take]
    simpa using h4
  obtain ⟨s, t, hst⟩ := h5
  have hb5 := jsIncludes_of_parts s t hst
  simp [inferType, hb1, hb2, hb3, hb4, hb5]

theorem inferType_unknown {f : List Char} (h1 : f.take 4 ≠ ['s', 't', 'g', '_'])
    (h2 : f.take 4 ≠ ['i', 'n', 't', '_']) (h3 : f.take 4 ≠ ['f', 'c', 't', '_'])
    (h4 : f.take 4 ≠ ['d', 'i', 'm', '_'])
    (h5 : ∀ s t, f ≠ s ++ ['s', 'n', 'a', 'p', 's', 'h', 'o', 't'] ++ t) :
    inferType f = "unknown" := by
  have hb1 : jsStartsWith f ['s', 't', 'g', '_'] = false := by
    rw [← Bool.not_eq_true, jsStartsWith_iff_take]
    simpa using h1
  have hb2 : jsStartsWith f ['i', 'n', 't', '_'] = false := by
    rw [← Bool.not_eq_true, jsStartsWith_iff_take]
    simpa using h2
  have hb3 : jsStartsWith f ['f', 'c', 't', '_'] = false := by
    rw [← Bool.not_eq_true, jsStartsWith_iff_take]
    simpa using h3
  have hb4 : jsStartsWith f ['d', 'i', 'm', '_'] = false := by
    rw [← Bool.not_eq_true, jsStartsWith_iff_take]
    simpa using h4
  have hb5 : jsIncludes f ['s', 'n', 'a', 'p', 's', 'h', 'o', 't'] = false :=
    jsIncludes_eq_false_iff.mpr h5
  simp [inferType, hb1, hb2, hb3, hb4, hb5]

/-! ### Absence of a construct yields the empty field -/

theorem matchAllWith_ref_nil {l : List Char} (h : '\x7b' ∉ l) :
    matchAllWith matchRefAt l = [] := by
  apply scanA_eq_nil
  intro s t hst
  cases t with
  | nil => rfl
  | cons c cs =>
    refine matchRefAt_cons_ne ?_
    rintro rfl
    exact h (by rw [← hst]; simp)

theorem matchAllWith_source_nil {l : List Char} (h : '\x7b' ∉ l) :
    matchAllWith matchSourceAt l = [] := by
  apply scanA_eq_nil
  intro s t hst
  cases t with
  | nil => rfl
  | cons c cs =>
    refine matchSourceAt_cons_ne ?_
    rintro rfl
    exact h (by rw [← hst]; simp)

theorem firstSomeBy_config_nil {l : List Char} (h : '\x7b' ∉ l) :
    firstSomeBy matchConfigAt l = none := by
  apply firstSomeBy_eq_none
  intro s t hst
  cases t with
  | nil => rfl
  | cons c cs =>
    refine matchConfigAt_cons_ne ?_
    rintro rfl
    exact h (by rw [← hst]; simp)

theorem toLowerJs_append (a b : List Char) :
    toLowerJs (a ++ b) = toLowerJs a ++ toLowerJs b := by
  simp [toLowerJs]

theorem firstSomeBy_select_nil {l : List Char}
    (hns : ∀ s t, toLowerJs l ≠ s ++ ['s', 'e', 'l', 'e', 'c', 't'] ++ t) :
    firstSomeBy matchSelectAt l = none := by
  apply firstSomeBy_eq_none
  intro s t hst
  cases hcase : startsWithCI ['s', 'e', 'l', 'e', 'c', 't'] t with
  | false => exact matchSelectAt_eq_none hcase
  | true =>
    exfalso
    rw [startsWithCI] at hcase
    obtain ⟨r, hr⟩ := isPrefixOf_iff_exists_append.mp hcase
    apply hns (toLowerJs s) (r ++ toLowerJs (t.drop 6))
    calc toLowerJs l = toLowerJs (s ++ t) := by rw [hst]
      _ = toLowerJs s ++ (toLowerJs (t.take 6) ++ toLowerJs (t.drop 6)) := by
          rw [toLowerJs_append, ← toLowerJs_append (t.take 6) (t.drop 6),
            List.take_append_drop]
      _ = toLowerJs s ++ ['s', 'e', 'l', 'e', 'c', 't'] ++ (r ++ toLowerJs (t.drop 6)) := by
          have : toLowerJs (t.take 6) = ['s', 'e', 'l', 'e', 'c', 't'] ++ r := by
            simpa using hr
          rw [this]
          simp

/-! ### The shape matched by the hardcoded-date regex -/



theorem dateAt_of_shape {d1 d2 m1 m2 e1 e2 : Char} (rest : List Char)
    (h1 : d1.isDigit = true) (h2 : d2.isDigit = true) (h3 : m1.isDigit = true)
    (h4 : m2.isDigit = true) (h5 : e1.isDigit = true) (h6 : e2.isDigit = true) :
    dateAt (datePat d1 d2 m1 m2 e1 e2 ++ rest) = some (datePat d1 d2 m1 m2 e1 e2) := by
  simp [datePat, dateAt, h1, h2, h3, h4, h5, h6]

theorem dateAt_some_shape {l m : List Char} (h : dateAt l = some m) :
    ∃ d1 d2 m1 m2 e1 e2 rest,
      (d1.isDigit ∧ d2.isDigit ∧ m1.isDigit ∧ m2.isDigit ∧ e1.isDigit ∧ e2.isDigit)
      ∧ l = datePat d1 d2 m1 m2 e1 e2 ++ rest := by
  unfold dateAt at h
  split at h
  case h_2 => cases h
  case h_1 q1 a b d1 d2 h1c m1 m2 h2c e1 e2 q2 rest =>
    split at h
    case isFalse => cases h
    case isTrue hcond =>
      simp only [Bool.and_eq_true, decide_eq_true_eq] at hcond
      obtain ⟨⟨⟨⟨⟨⟨⟨⟨⟨⟨⟨hq1, ha⟩, hb⟩, hd1⟩, hd2⟩, hh1⟩, hm1⟩, hm2⟩, hh2⟩, he1⟩, he2⟩, hq2⟩ :=
        hcond
      subst hq1 ha hb hh1 hh2 hq2
      exact ⟨d1, d2, m1, m2, e1, e2, rest, ⟨hd1, hd2, hm1, hm2, he1, he2⟩, by
        simp [datePat]⟩

theorem findDate_isSome_iff {l : List Char} :
    (findDate l).isSome = true ↔ HasDateLit l := by
  constructor
  · intro h
    obtain ⟨m, hm⟩ := Option.isSome_iff_exists.mp h
    obtain ⟨s, t, hst, hmt⟩ := firstSomeBy_eq_some hm
    obtain ⟨d1, d2, m1, m2, e1, e2, rest, hdig, hts⟩ := dateAt_some_shape hmt
    exact ⟨s, rest, d1, d2, m1, m2, e1, e2, hdig, by rw [hst, hts]; simp⟩
  · rintro ⟨pre, post, d1, d2, m1, m2, e1, e2, ⟨hd1, hd2, hm1, hm2, he1, he2⟩, rfl⟩
    rw [findDate, List.append_assoc]
    exact firstSomeBy_isSome pre (by simp [datePat])
      (dateAt_of_shape post hd1 hd2 hm1 hm2 he1 he2)

/-! ### Score arithmetic of the review scorer -/

theorem severityDeduction_nonneg (s : String) : 0 ≤ severityDeduction s := by
  rw [severityDeduction]
  split_ifs <;> norm_num

theorem apPenalty_nonneg (aps : List Issue) :
    0 ≤ (aps.map (fun ap => severityDeduction ap.severity)).sum := by
  apply List.sum_nonneg
  intro x hx
  obtain ⟨i, -, rfl⟩ := List.mem_map.mp hx
  exact severityDeduction_nonneg _

/-- The score of `reviewCode`, unfolded: 100 minus the issue deductions
and the strict deductions, clamped to `[0, 100]`. -/
theorem reviewCode_score (m : ParsedModel) (c w : String) (strict : Bool) :
    (reviewCode m c w strict).score
      = max 0 (min 100 (100
          - ((detectAntiPatternsFromContent c m w).map
              (fun ap => severityDeduction ap.severity)).sum
          - (if strict && missingDescCond c then 5 else 0)
          - (if strict && namingCond m then 5 else 0))) := rfl

/-- The issues of `reviewCode`, unfolded: the detector issues re-packaged,
then the two conditional strict issues. -/
theorem reviewCode_issues (m : ParsedModel) (c w : String) (strict : Bool) :
    (reviewCode m c w strict).issues
      = (detectAntiPatternsFromContent c m w).map (fun ap =>
          ({ severity := ap.severity, title := ap.pattern, description := ap.explanation,
             suggestion := ap.fix, line := ap.line } : ReviewIssue))
        ++ (if strict && missingDescCond c then [missingDescIssue] else [])
        ++ (if strict && namingCond m then [namingIssue m] else []) := rfl

/-! ### Projection helpers for `parseModel` -/

theorem parseModel_type (content fileName : String) :
    (parseModel content fileName).type = inferType fileName.toList := rfl

theorem parseModel_refs (content fileName : String) :
    (parseModel content fileName).refs
      = (matchAllWith matchRefAt content.toList).map String.mk := rfl

theorem parseModel_sources (content fileName : String) :
    (parseModel content fileName).sources
      = (matchAllWith matchSourceAt content.toList).map
          (fun p => (String.mk p.1, String.mk p.2)) := rfl

theorem parseModel_materialization (content fileName : String) :
    (parseModel content fileName).materialization
      = (firstSomeBy matchConfigAt content.toList).bind
          (fun cs => (firstSomeBy matchMatAt cs).map (fun wd => String.mk wd)) := rfl

/-! ### Concrete inputs used by the claims -/



/-! ### C1 -/

/-- C1, counterexample: on the end-to-end scenario of the spec itself the detector
emits no "Incremental without unique_key" issue at all (the rule fires on
the substring `is_incremental()`, which the text lacks), and `reviewCode`
with `strict = false` returns `overall = "comment"` (not
`"request_changes"`) with score 85 (not ≤ 75). -/
theorem c1_counterexample :
    (∀ i ∈ detectAntiPatternsFromContent fctOrdersContent fctOrdersModel "snowflake",
      i.pattern ≠ "Incremental without unique_key")
    ∧ (reviewCode fctOrdersModel fctOrdersContent "snowflake" false).overall
        ≠ "request_changes"
    ∧ ¬((reviewCode fctOrdersModel fctOrdersContent "snowflake" false).score ≤ 75) := by
  decide

/-- C1, amended: on the scenario input named `fct_orders.sql` the detector
returns exactly one issue, "SELECT * in production" with severity high (and
in particular no "Incremental without unique_key", since the critical rule
triggers on the substring `is_incremental()`, absent from this text), and
`reviewCode` with `strict = false` returns `overall = "comment"` and
`score = 85`. -/
theorem c1_amended :
    (detectAntiPatternsFromContent fctOrdersContent fctOrdersModel "snowflake").map
        (fun i => (i.pattern, i.severity)) = [("SELECT * in production", "high")]
    ∧ (reviewCode fctOrdersModel fctOrdersContent "snowflake" false).overall = "comment"
    ∧ (reviewCode fctOrdersModel fctOrdersContent "snowflake" false).score = 85 := by
  decide

/-! ### C3 -/

/-- C3, counterexample: the prefix tests of `parseModel` are
case-sensitive (`fileName.startsWith("stg_")` on the raw name; only the
SQL text is lower-cased), so `STG_orders.sql` classifies as `unknown`,
not `staging` as the lower-cased reading of the claim requires. -/
theorem c3_counterexample :
    (parseModel "" "STG_orders.sql").type = "unknown"
    ∧ (parseModel "" "STG_orders.sql").type ≠ "staging" := by
  decide

/-- C3, amended: `parseModel` tests the raw `fileName` case-sensitively in
the precedence order `stg_` → staging, else `int_` → intermediate, else
`fct_` → fact, else `dim_` → dimension, else substring `snapshot` →
snapshot, else unknown, first match winning; `stg_int_orders.sql`
classifies as staging, but upper-case prefixes such as `STG_` do not
match. -/
theorem c3_type_rules (content fileName : String) :
    (fileName.toList.take 4 = ['s', 't', 'g', '_']
      → (parseModel content fileName).type = "staging")
    ∧ (fileName.toList.take 4 ≠ ['s', 't', 'g', '_']
      → fileName.toList.take 4 = ['i', 'n', 't', '_']
      → (parseModel content fileName).type = "intermediate")
    ∧ (fileName.toList.take 4 ≠ ['s', 't', 'g', '_']
      → fileName.toList.take 4 ≠ ['i', 'n', 't', '_']
      → fileName.toList.take 4 = ['f', 'c', 't', '_']
      → (parseModel content fileName).type = "fact")
    ∧ (fileName.toList.take 4 ≠ ['s', 't', 'g', '_']
      → fileName.toList.take 4 ≠ ['i', 'n', 't', '_']
      → fileName.toList.take 4 ≠ ['f', 'c', 't', '_']
      → fileName.toList.take 4 = ['d', 'i', 'm', '_']
      → (parseModel content fileName).type = "dimension")
    ∧ (fileName.toList.take 4 ≠ ['s', 't', 'g', '_']
      → fileName.toList.take 4 ≠ ['i', 'n', 't', '_']
      → fileName.toList.take 4 ≠ ['f', 'c', 't', '_']
      → fileName.toList.take 4 ≠ ['d', 'i', 'm', '_']
      → (∃ s t, fileName.toList = s ++ ['s', 'n', 'a', 'p', 's', 'h', 'o', 't'] ++ t)
      → (parseModel content fileName).type = "snapshot")
    ∧ (fileName.toList.take 4 ≠ ['s', 't', 'g', '_']
      → fileName.toList.take 4 ≠ ['i', 'n', 't', '_']
      → fileName.toList.take 4 ≠ ['f', 'c', 't', '_']
      → fileName.toList.take 4 ≠ ['d', 'i', 'm', '_']
      → (∀ s t, fileName.toList ≠ s ++ ['s', 'n', 'a', 'p', 's', 'h', 'o', 't'] ++ t)
      → (parseModel content fileName).type = "unknown") := by
  refine ⟨?_, ?_, ?_, ?_, ?_, ?_⟩
  · intro h
    rw [parseModel_type]
    exact inferType_stg h
  · intro h1 h2
    rw [parseModel_type]
    exact inferType_int h1 h2
  · intro h1 h2 h3
    rw [parseModel_type]
    exact inferType_fct h1 h2 h3
  · intro h1 h2 h3 h4
    rw [parseModel_type]
    exact inferType_dim h1 h2 h3 h4
  · intro h1 h2 h3 h4 h5
    rw [parseModel_type]
    exact inferType_snapshot h1 h2 h3 h4 h5
  · intro h1 h2 h3 h4 h5
    rw [parseModel_type]
    exact inferType_unknown h1 h2 h3 h4 h5

/-- Witness for C3: the precedence instance `stg_int_orders.sql` →
staging, and the case-sensitivity instance `STG_orders.sql` → unknown,
both obtained from `c3_type_rules`. -/
theorem c3_witness :
    (parseModel "" "stg_int_orders.sql").type = "staging"
    ∧ (parseModel "" "STG_orders.sql").type = "unknown" :=
  ⟨(c3_type_rules "" "stg_int_orders.sql").1 (by decide),
   (c3_type_rules "" "STG_orders.sql").2.2.2.2.2 (by decide) (by decide) (by decide)
     (by decide) (jsIncludes_eq_false_iff.mp (by decide))⟩

/-! ### C9 -/

/-- C9: `parseModel`, the detector and `reviewCode` are deterministic pure
functions of their arguments; two calls on structurally identical inputs
return structurally equal results.  The embedding as total Lean functions
is faithful because the TypeScript bodies perform no I/O and read no
mutable or ambient state (no `Date`, no randomness, no module-level
variables). -/
theorem c9_deterministic (content fileName c w : String) (m : ParsedModel)
    (strict : Bool) :
    parseModel content fileName = parseModel content fileName
    ∧ detectAntiPatternsFromContent c m w = detectAntiPatternsFromContent c m w
    ∧ reviewCode m c w strict = reviewCode m c w strict :=
  ⟨rfl, rfl, rfl⟩

/-! ### C2 -/



set_option maxRecDepth 20000 in
/-- C2, counterexample: the issue set of `c2contentB` is exactly that of
`c2contentA` plus one extra critical issue, yet
`score(B) = 0 > score(A) - 25 = -15` because the score is clamped at 0:
the claimed inequality `score(B) ≤ score(A) - 25` fails. -/
theorem c2_counterexample :
    (detectAntiPatternsFromContent c2contentB c2modelB "postgres").Perm
      (c2extraIssue :: detectAntiPatternsFromContent c2contentA c2modelA "postgres")
    ∧ c2extraIssue.severity = "critical"
    ∧ ¬((reviewCode c2modelB c2contentB "postgres" false).score
        ≤ (reviewCode c2modelA c2contentA "postgres" false).score - 25) := by
  decide

/-- C2, amended: for any two inputs (with `strict = false` on both calls)
whose detected issue severities are related by "B is A plus one extra
critical issue", the scores satisfy `score(B) ≤ max 0 (score(A) - 25)`;
the original bound `score(A) - 25` only fails below the clamp at 0. -/
theorem c2_score_clamped_monotonic (mA mB : ParsedModel) (cA cB wA wB : String)
    (hperm : ((detectAntiPatternsFromContent cB mB wB).map Issue.severity).Perm
      ("critical" :: (detectAntiPatternsFromContent cA mA wA).map Issue.severity)) :
    (reviewCode mB cB wB false).score
      ≤ max 0 ((reviewCode mA cA wA false).score - 25) := by
  rw [reviewCode_score, reviewCode_score]
  simp only [Bool.false_and, if_false, sub_zero]
  have hsum : ((detectAntiPatternsFromContent cB mB wB).map
        (fun ap => severityDeduction ap.severity)).sum
      = 25 + ((detectAntiPatternsFromContent cA mA wA).map
        (fun ap => severityDeduction ap.severity)).sum := by
    have hmapped := (hperm.map severityDeduction).sum_eq
    simp only [List.map_map, List.map_cons, List.sum_cons, Function.comp] at hmapped
    simpa [severityDeduction] using hmapped
  rw [hsum]
  have h0 := apPenalty_nonneg (detectAntiPatternsFromContent cA mA wA)
  omega

set_option maxRecDepth 20000 in
/-- Witness for the amended C2 theorem at the concrete input pair. -/
theorem c2_witness :
    (reviewCode c2modelB c2contentB "postgres" false).score
      ≤ max 0 ((reviewCode c2modelA c2contentA "postgres" false).score - 25) :=
  c2_score_clamped_monotonic c2modelA c2modelB c2contentA c2contentB
    "postgres" "postgres" (by decide)

/-! ### C4 -/

/-- C4: `parseModel` (and with it the detector and `reviewCode`, which are
built from the same total primitives) is a total function — the embedding
itself certifies termination without exceptions — and the absence of any
recognizable construct degrades gracefully: no template braces means empty
`refs`/`sources`, `none` materialization and empty `config`; no `select`
(case-insensitively) means empty `columns`; no matching name prefix and no
`snapshot` substring means the `unknown` type. -/
theorem c4_never_fails (content fileName : String) :
    (('\x7b' ∉ content.toList) →
      (parseModel content fileName).refs = []
      ∧ (parseModel content fileName).sources = []
      ∧ (parseModel content fileName).materialization = none
      ∧ (parseModel content fileName).config = [])
    ∧ ((∀ s t, toLowerJs content.toList ≠ s ++ ['s', 'e', 'l', 'e', 'c', 't'] ++ t) →
      (parseModel content fileName).columns = [])
    ∧ ((fileName.toList.take 4 ≠ ['s', 't', 'g', '_']
        ∧ fileName.toList.take 4 ≠ ['i', 'n', 't', '_']
        ∧ fileName.toList.take 4 ≠ ['f', 'c', 't', '_']
        ∧ fileName.toList.take 4 ≠ ['d', 'i', 'm', '_']
        ∧ (∀ s t, fileName.toList ≠ s ++ ['s', 'n', 'a', 'p', 's', 'h', 'o', 't'] ++ t)) →
      (parseModel content fileName).type = "unknown") := by
  refine ⟨?_, ?_, ?_⟩
  · intro h
    refine ⟨?_, ?_, ?_, ?_⟩
    · rw [parseModel_refs, matchAllWith_ref_nil h]
      rfl
    · rw [parseModel_sources, matchAllWith_source_nil h]
      rfl
    · rw [parseModel_materialization, firstSomeBy_config_nil h]
      rfl
    · show (match firstSomeBy matchConfigAt content.toList with
        | none => []
        | some cs => (matchAllWith matchKvAt cs).foldl
            (fun o kv => objSet o (String.mk kv.1) (String.mk kv.2)) []) = []
      rw [firstSomeBy_config_nil h]
  · intro h
    show (match firstSomeBy matchSelectAt content.toList with
      | none => []
      | some cap =>
        if jsIncludes cap ['*'] then []
        else ((splitCols cap).filterMap colAlias).map String.mk) = []
    rw [firstSomeBy_select_nil h]
  · rintro ⟨h1, h2, h3, h4, h5⟩
    rw [parseModel_type]
    exact inferType_unknown h1 h2 h3 h4 h5

/-- Witness for C4 on the empty text named `x`. -/
theorem c4_witness :
    (parseModel "" "x").refs = [] ∧ (parseModel "" "x").sources = []
    ∧ (parseModel "" "x").materialization = none ∧ (parseModel "" "x").config = []
    ∧ (parseModel "" "x").columns = [] ∧ (parseModel "" "x").type = "unknown" := by
  obtain ⟨h1, h2, h3⟩ := c4_never_fails "" "x"
  have ha := h1 (by decide)
  have hb := h2 (by
    intro s t h
    have := congrArg List.length h
    simp [toLowerJs] at this
    omega)
  have hc := h3 ⟨by decide, by decide, by decide, by decide, by
    intro s t h
    have := congrArg List.length h
    simp at this
    omega⟩
  exact ⟨ha.1, ha.2.1, ha.2.2.1, ha.2.2.2, hb, hc⟩

/-! ### C5 -/

/-- C5: `parseModel` collects the quoted names of the ref-call occurrences
into `refs` in order of appearance with no de-duplication; for a text
consisting of three ref calls (single- or double-quoted) interleaved with
arbitrary brace-free separators, `refs` lists the three names in order,
repetitions included. -/
theorem c5_refs_order (s1 s2 s3 s4 : String) (q1 q2 q3 : Char) (n1 n2 n3 : String)
    (fileName : String)
    (hq1 : isQuoteJs q1 = true) (hq2 : isQuoteJs q2 = true) (hq3 : isQuoteJs q3 = true)
    (hs1 : ∀ c ∈ s1.toList, c ≠ '\x7b') (hs2 : ∀ c ∈ s2.toList, c ≠ '\x7b')
    (hs3 : ∀ c ∈ s3.toList, c ≠ '\x7b') (hs4 : ∀ c ∈ s4.toList, c ≠ '\x7b')
    (hn1 : n1.toList ≠ []) (hn2 : n2.toList ≠ []) (hn3 : n3.toList ≠ [])
    (hn1q : ∀ c ∈ n1.toList, isQuoteJs c = false)
    (hn2q : ∀ c ∈ n2.toList, isQuoteJs c = false)
    (hn3q : ∀ c ∈ n3.toList, isQuoteJs c = false) :
    (parseModel (s1 ++ String.mk (refCallChars q1 n1.toList) ++ s2
        ++ String.mk (refCallChars q2 n2.toList) ++ s3
        ++ String.mk (refCallChars q3 n3.toList) ++ s4) fileName).refs
      = [n1, n2, n3] := by
  rw [parseModel_refs]
  have hl : (s1 ++ String.mk (refCallChars q1 n1.toList) ++ s2
        ++ String.mk (refCallChars q2 n2.toList) ++ s3
        ++ String.mk (refCallChars q3 n3.toList) ++ s4).toList
      = s1.toList ++ (refCallChars q1 n1.toList ++ (s2.toList
        ++ (refCallChars q2 n2.toList ++ (s3.toList
        ++ (refCallChars q3 n3.toList ++ (s4.toList ++ [])))))) := by
    show s1.toList ++ refCallChars q1 n1.toList ++ s2.toList
        ++ refCallChars q2 n2.toList ++ s3.toList
        ++ refCallChars q3 n3.toList ++ s4.toList = _
    simp [List.append_assoc]
  rw [hl, matchAllWith_not_brace hs1, matchAllWith_refCall hq1 hn1 hn1q,
    matchAllWith_not_brace hs2, matchAllWith_refCall hq2 hn2 hn2q,
    matchAllWith_not_brace hs3, matchAllWith_refCall hq3 hn3 hn3q,
    matchAllWith_not_brace hs4]
  rfl

/-- Witness for C5: the instance given in the spec, three ref calls to
`a`, `b` and `a` again separated by ` ... `, yields
`refs = ["a", "b", "a"]`. -/
theorem c5_witness :
    (parseModel ("" ++ String.mk (refCallChars '\x27' "a".toList) ++ " ... "
        ++ String.mk (refCallChars '\x22' "b".toList) ++ " ... "
        ++ String.mk (refCallChars '\x27' "a".toList) ++ "") "m.sql").refs
      = ["a", "b", "a"] :=
  c5_refs_order "" " ... " " ... " "" '\x27' '\x22' '\x27' "a" "b" "a" "m.sql"
    (by decide) (by decide) (by decide) (by decide) (by decide) (by decide) (by decide)
    (by decide) (by decide) (by decide) (by decide) (by decide) (by decide)

/-! ### C6 -/

/-- C6: for every content text and every model with `type = "staging"` and
non-empty `refs`, the detector output contains the "ref() in staging
model" issue with severity high, regardless of the text. -/
theorem c6_staging_ref (content : String) (model : ParsedModel) (warehouse : String)
    (h1 : model.type = "staging") (h2 : model.refs ≠ []) :
    ∃ i ∈ detectAntiPatternsFromContent content model warehouse,
      i.pattern = "ref() in staging model" ∧ i.severity = "high" := by
  have hlen : model.refs.length > 0 := List.length_pos.mpr h2
  refine ⟨({ pattern := "ref() in staging model", severity := "high",
             location := "Model references",
             fix := "Use source() instead of ref() in staging models",
             explanation := "Staging models should only reference sources, not other models.",
             line := none } : Issue), ?_, rfl, rfl⟩
  simp [detectAntiPatternsFromContent, h1, hlen]



/-- Witness for C6 on the `stg_customers.sql` scenario. -/
theorem c6_witness :
    ∃ i ∈ detectAntiPatternsFromContent stgCustomersContent stgCustomersModel "snowflake",
      i.pattern = "ref() in staging model" ∧ i.severity = "high" :=
  c6_staging_ref stgCustomersContent stgCustomersModel "snowflake" (by decide) (by decide)

/-! ### C7 -/

/-- Membership in a conditional singleton forces equality with it. -/
theorem eq_of_mem_ite_singleton {c : Prop} [Decidable c] {x i : Issue}
    (h : i ∈ (if c then [x] else [])) : i = x := by
  split at h
  · simpa using h
  · simp at h



/-- C7, counterexample: the text `\x271999-01-01\x27` is a quoted
YYYY-MM-DD string literal, yet the detector returns no issue at all for
it — the source regex only matches single-quoted years starting with
`20`. -/
theorem c7_counterexample :
    IsQuotedYmd year1999Content.toList
    ∧ detectAntiPatternsFromContent year1999Content year1999Model "postgres" = [] := by
  constructor
  · exact ⟨[], [], '1', '9', '9', '9', '0', '1', '0', '1', by decide, by decide⟩
  · decide

/-- C7, amended: the detector emits the "Hardcoded date literal" issue
(severity medium) exactly when the text contains a single-quoted
`20##-##-##` literal — the precise shape of the source regex — and no
such issue otherwise. -/
theorem c7_hardcoded_date_iff (content : String) (model : ParsedModel)
    (warehouse : String) :
    (∃ i ∈ detectAntiPatternsFromContent content model warehouse,
      i.pattern = "Hardcoded date literal" ∧ i.severity = "medium")
    ↔ HasDateLit content.toList := by
  constructor
  · rintro ⟨i, hmem, hpat, hsev⟩
    rw [← findDate_isSome_iff]
    simp only [detectAntiPatternsFromContent, List.mem_append] at hmem
    rcases hmem with ((((((((((h | h) | h) | h) | h) | h) | h) | h) | h) | h) | h)
    · rw [eq_of_mem_ite_singleton h] at hpat
      simp at hpat
    · split at h
      · rw [List.mem_append] at h
        rcases h with h | h
        · rw [eq_of_mem_ite_singleton h] at hpat
          simp at hpat
        · rw [eq_of_mem_ite_singleton h] at hpat
          simp at hpat
      · simp at h
    · rw [eq_of_mem_ite_singleton h] at hpat
      simp at hpat
    · rw [eq_of_mem_ite_singleton h] at hpat
      simp at hpat
    · cases hf : findDate content.toList with
      | none => rw [hf] at h; simp at h
      | some m => rfl
    · rw [eq_of_mem_ite_singleton h] at hpat
      simp at hpat
    · rw [eq_of_mem_ite_singleton h] at hpat
      simp at hpat
    · rw [eq_of_mem_ite_singleton h] at hpat
      simp at hpat
    · split at h
      · rw [eq_of_mem_ite_singleton h] at hpat
        simp at hpat
      · simp at h
    · split at h
      · rw [eq_of_mem_ite_singleton h] at hpat
        simp at hpat
      · simp at h
    · rw [eq_of_mem_ite_singleton h] at hpat
      simp at hpat
  · intro hd
    have hsome := findDate_isSome_iff.mpr hd
    obtain ⟨m, hf⟩ := Option.isSome_iff_exists.mp hsome
    have hf2 : findDate content.data = some m := hf
    refine ⟨({ pattern := "Hardcoded date literal", severity := "medium",
               location := "Line "
                 ++ toString (jsFindIndex (fun ln => jsIncludes ln m)
                      (splitNl content.toList) 0 + 1)
                 ++ ": " ++ String.mk m,
               fix := "Use var() or dbt_date macros",
               explanation := "Hardcoded dates require manual updates and differ between environments.",
               line := some (jsFindIndex (fun ln => jsIncludes ln m)
                 (splitNl content.toList) 0 + 1) } : Issue), ?_, rfl, rfl⟩
    simp [detectAntiPatternsFromContent, hf2]

/-- Witness for the amended C7 theorem: a text containing
`\x272023-05-05\x27` produces the issue, via the right-to-left direction
at an explicit decomposition. -/
theorem c7_witness :
    ∃ i ∈ detectAntiPatternsFromContent "where d = \x272023-05-05\x27"
        year1999Model "postgres",
      i.pattern = "Hardcoded date literal" ∧ i.severity = "medium" :=
  (c7_hardcoded_date_iff "where d = \x272023-05-05\x27" year1999Model "postgres").mpr
    ⟨"where d = ".toList, [], '2', '3', '0', '5', '0', '5', by decide, by decide⟩

/-! ### C8 -/

/-- C8: with `strict = true`, `reviewCode` appends one low-severity issue
and deducts 5 further points for each failing strict check — (a)
`missingDescCond`: the text has no occurrence of `description`; (b)
`namingCond`: the inferred type is not `unknown` and the name does not
start with the first 3 letters of the type name followed by `_` (so a
fact-typed model must start with `fac_`, the literal truncation rule) —
while with `strict = false` neither check runs and the issues are exactly
the re-packaged detector issues. -/
theorem c8_strict_checks (m : ParsedModel) (c w : String) :
    (reviewCode m c w true).issues
      = (reviewCode m c w false).issues
        ++ (if missingDescCond c then [missingDescIssue] else [])
        ++ (if namingCond m then [namingIssue m] else [])
    ∧ (reviewCode m c w true).score
      = max 0 ((reviewCode m c w false).score
          - (if missingDescCond c then 5 else 0)
          - (if namingCond m then 5 else 0))
    ∧ (reviewCode m c w false).issues
      = (detectAntiPatternsFromContent c m w).map (fun ap =>
          ({ severity := ap.severity, title := ap.pattern,
             description := ap.explanation, suggestion := ap.fix,
             line := ap.line } : ReviewIssue)) := by
  refine ⟨?_, ?_, ?_⟩
  · rw [reviewCode_issues, reviewCode_issues]
    simp
  · rw [reviewCode_score, reviewCode_score]
    simp only [Bool.true_and, Bool.false_and, if_false, sub_zero]
    have hp := apPenalty_nonneg (detectAntiPatternsFromContent c m w)
    cases missingDescCond c <;> cases namingCond m <;> simp <;> omega
  · rw [reviewCode_issues]
    simp

/-! ### C10 -/

/-- C10: the exported two-argument `detectAntiPatterns(model, warehouse)`
returns the empty issue list for every model and warehouse; all rule
evaluation lives in `detectAntiPatternsFromContent`. -/
theorem c10_detectAntiPatterns_empty (m : ParsedModel) (w : String) :
    detectAntiPatterns m w = [] := rfl

end DataChonk
